import Mathlib

/-!
# Verification of the virtual try-on service core

Shallow embedding of the two algorithmic components of the repository:

* the Resilient Client `call_virtual_try_on` (src/virtual_try_on_demo.py,
  lines 53-98): a bounded exponential-backoff retry loop around a POST to a
  Vertex AI predict endpoint;
* the Compositor `composite_on_background` and the payload-size guard
  `resize_and_encode` (src/api_app.py).

Machine integers and Python floats are modelled over `Nat`, `Int` and `Rat`;
images are modelled at the level the claims speak about (dimensions and
colour mode), with the pixel-level alpha rule and the brightness factor
extracted exactly as written in the source. The network, the filesystem and
the external segmentation model (rembg) are parameters of the embedding.
-/

namespace VTO

/-! ## Resilient Client (src/virtual_try_on_demo.py) -/

/-- Outcome of one `requests.post` + `raise_for_status` round-trip, as seen
by the `try` block of `call_virtual_try_on`.  `success` is a 2xx response
whose parsed JSON is `resp`; `httpError` is a non-2xx response, for which
`raise_for_status` raises `requests.HTTPError` carrying status and body;
`transportError` is any exception from `requests.post` itself (connection
error, timeout, ...), which is not a `requests.HTTPError`. -/
inductive AttemptOutcome (α : Type) where
  | success (resp : α)
  | httpError (status : Nat) (body : String)
  | transportError (msg : String)
deriving DecidableEq

/-- How one call of `call_virtual_try_on` terminates. `ok` returns the parsed
JSON; `raisedHttpError` is the bare `raise` after exhausting retries;
`raisedTransportError` is an uncaught non-HTTPError exception escaping the
`try` block; `systemExit` is the `raise SystemExit` after the `for` loop,
carrying the recorded `last_exc` (status and body, or `none`). -/
inductive CallResult (α : Type) where
  | ok (resp : α)
  | raisedHttpError (status : Nat) (body : String)
  | raisedTransportError (msg : String)
  | systemExit (lastExc : Option (Nat × String))
deriving DecidableEq

/-- Observable trace of one call: how many POSTs were issued, the durations
passed to `time.sleep` in order, and the terminal result. -/
structure CallTrace (α : Type) where
  attempts : Nat
  sleeps : List ℚ
  result : CallResult α
deriving DecidableEq

/-- One iteration of the `for attempt in range(max_retries + 1)` loop and its
continuation.  `attempt` is the current loop index, `remaining` the number of
iterations the `range` still has, `lastExc` the current value of `last_exc`.
Mirrors lines 76-98 of src/virtual_try_on_demo.py: a 2xx response returns the
parsed JSON; an exception that is a `requests.HTTPError` sets `last_exc`,
re-raises when `attempt >= max_retries` and otherwise sleeps
`backoff_seconds * 2 ** attempt` and continues; any other exception
propagates uncaught; an exhausted range falls through to `raise SystemExit`. -/
def callAux {α : Type} (endpoint : Nat → AttemptOutcome α) (maxRetries : Int)
    (backoff : ℚ) : Nat → Nat → Option (Nat × String) → CallTrace α
  | _, 0, lastExc => ⟨0, [], .systemExit lastExc⟩
  | attempt, remaining + 1, _ =>
    match endpoint attempt with
    | .success resp => ⟨1, [], .ok resp⟩
    | .transportError msg => ⟨1, [], .raisedTransportError msg⟩
    | .httpError status body =>
      if (attempt : Int) ≥ maxRetries then ⟨1, [], .raisedHttpError status body⟩
      else
        let rest := callAux endpoint maxRetries backoff (attempt + 1) remaining
          (some (status, body))
        ⟨rest.attempts + 1, backoff * 2 ^ attempt :: rest.sleeps, rest.result⟩

/-- `call_virtual_try_on` (src/virtual_try_on_demo.py lines 53-98), with the
network abstracted as `endpoint : Nat → AttemptOutcome α` giving the outcome
of each attempt.  Python's `range(max_retries + 1)` yields
`max(max_retries + 1, 0)` iterations, i.e. `(maxRetries + 1).toNat`;
`last_exc` starts as `None`. -/
def call_virtual_try_on {α : Type} (endpoint : Nat → AttemptOutcome α)
    (maxRetries : Int) (backoff : ℚ) : CallTrace α :=
  callAux endpoint maxRetries backoff 0 (maxRetries + 1).toNat none

/-! ## Compositor pixel rules (src/api_app.py) -/

/-- The edge-cleanup alpha rule of line 173 of src/api_app.py:
`fg_alpha.point(lambda a: 255 if a > 200 else a)`. -/
def snapAlpha (a : Nat) : Nat := if 200 < a then 255 else a

/-- The luminance-matching step of lines 206-208 of src/api_app.py: given the
background and subject luminances, `some factor` when `fg_luma > 0` with
`factor = max(0.85, min(1.15, bg_luma / fg_luma))`, and `none` (no brightness
change) otherwise. -/
def brightnessFactor (bgLuma fgLuma : ℚ) : Option ℚ :=
  if 0 < fgLuma then some (max (85/100) (min (115/100) (bgLuma / fgLuma)))
  else none

/-! ## Image model

The compositor claims speak about image dimensions, colour mode and the
control flow around the segmenter; the embedding tracks exactly those.
Each PIL operation used by src/api_app.py is modelled by its effect on
size and mode, which for these operations is their documented contract:
`convert` keeps the size; `resize((w, h))` returns a w by h image;
`ImageOps.fit(img, size)` returns an image of exactly `size`;
`Image.point` maps pixels in place; `GaussianBlur` keeps the size;
`alpha_composite(overlay, dest)` pastes into the receiver, whose size is
unchanged; `ImageEnhance.Brightness(...).enhance(f)` keeps the size. -/

/-- PIL colour modes used by the pipeline. -/
inductive Mode where
  | RGB
  | RGBA
  | L
deriving DecidableEq

/-- A raster image, at the granularity the claims need: pixel grid
dimensions and colour mode. -/
structure Img where
  width : Nat
  height : Nat
  mode : Mode
deriving DecidableEq

/-- `Image.convert(mode)`: same dimensions, new mode. -/
def Img.convert (i : Img) (m : Mode) : Img := ⟨i.width, i.height, m⟩

/-- `Image.resize((w, h))`: returns an image of exactly the requested size. -/
def Img.resizeTo (i : Img) (w h : Nat) : Img := ⟨w, h, i.mode⟩

/-- `ImageOps.fit(img, size)`: center-crop/resize to exactly `size`
("fit without stretch"). -/
def Img.fit (i : Img) (size : Nat × Nat) : Img := ⟨size.1, size.2, i.mode⟩

/-- `Image.point(f)` on the alpha band followed by `putalpha`: a pointwise
map, size and mode unchanged. -/
def Img.pointAlpha (i : Img) (_f : Nat → Nat) : Img := i

/-- `Image.filter(ImageFilter.GaussianBlur(r))`: size and mode unchanged. -/
def Img.gaussianBlur (i : Img) (_radius : Nat) : Img := i

/-- In-place `base.alpha_composite(overlay, dest)`: the receiver keeps its
size and mode. -/
def Img.alphaCompositeAt (base _overlay : Img) (_dest : Nat × Nat) : Img := base

/-- `ImageEnhance.Brightness(img).enhance(factor)`: size and mode unchanged. -/
def Img.enhanceBrightness (i : Img) (_factor : ℚ) : Img := i

/-! ## Compositor (src/api_app.py, `composite_on_background`) -/

/-- The value returned by `rembg.remove` as discriminated by lines 145-152 of
src/api_app.py: encoded image bytes, an in-memory `PIL.Image.Image`, a numpy
`ndarray` raster, or anything else (carrying the printed type name). The
first three carry the decoded cutout raster. -/
inductive RembgResult where
  | bytes (decoded : Img)
  | pilImage (img : Img)
  | ndarray (img : Img)
  | other (typeName : String)
deriving DecidableEq

/-- Failures of the compositing pipeline. `typeError` is the
`raise TypeError(f"Unexpected rembg output type: {type(cutout_result)}")`
of line 152 — the spec's `SegmentationError` for an unsupported segmenter
output shape. -/
inductive CompositeError where
  | typeError (msg : String)
deriving DecidableEq

/-- Lines 145-152 of src/api_app.py: accept bytes, `Image.Image` or
`np.ndarray` (each converted to RGBA), reject any other shape with a
`TypeError`. -/
def decodeCutout : RembgResult → Except CompositeError Img
  | .bytes i => .ok (i.convert .RGBA)
  | .pilImage i => .ok (i.convert .RGBA)
  | .ndarray i => .ok (i.convert .RGBA)
  | .other ty => .error (.typeError ("Unexpected rembg output type: " ++ ty))

/-- `composite_on_background` (src/api_app.py lines 122-217) over the image
model. `segment` abstracts `rembg.remove` on the re-encoded RGBA foreground;
`luma` abstracts `ImageOps.grayscale(img).resize((1, 1)).getpixel((0, 0))`,
the 1 by 1 down-sample luminance of an image. Python's `int()` truncation of
the nonnegative products `width * 1.35`, `width * 0.78`, `height * 0.14` is
floor division over `Nat` (the binary-float representations of the constants
differ from 27/20, 39/50, 7/50 by amounts no claim depends on). The final
`convert("RGB")` flattens to an opaque JPEG-bound image. -/
def composite_on_background (foregroundIn backgroundIn : Img)
    (segment : Img → RembgResult) (luma : Img → ℚ) : Except CompositeError Img :=
  let foreground := foregroundIn.convert .RGBA
  let background := backgroundIn.convert .RGBA
  (decodeCutout (segment foreground)).map (fun cutout =>
    let bgZoom := background.resizeTo (background.width * 135 / 100)
      (background.height * 135 / 100)
    let bg := bgZoom.fit (cutout.width, cutout.height)
    let fg := cutout.resizeTo (cutout.width * 78 / 100) (cutout.height * 78 / 100)
    let fgClean := fg.pointAlpha snapAlpha
    let shadow := Img.mk fgClean.width fgClean.height .RGBA
    let shadowBlurred := shadow.gaussianBlur 18
    let offset := ((bg.width - fgClean.width) / 2, bg.height * 14 / 100)
    let fgFinal := match brightnessFactor (luma bg) (luma fgClean) with
      | some factor => fgClean.enhanceBrightness factor
      | none => fgClean
    let withShadow := bg.alphaCompositeAt shadowBlurred offset
    let withSubject := withShadow.alphaCompositeAt fgFinal offset
    withSubject.convert .RGB)

/-! ## Payload-size guard (src/api_app.py, `resize_and_encode`)

`image.thumbnail((max_dim, max_dim))` follows Pillow's `Image.thumbnail`:
if the image already fits inside the box nothing changes; otherwise the
target is the box with one side reduced to preserve the aspect ratio, that
side rounded to the integer (floor or ceiling of the exact value, at least 1)
minimizing the aspect error. Python's float arithmetic is modelled exactly
over `ℚ`. -/

/-- Pillow's `round_aspect(number, key)`:
`max(min(math.floor(number), math.ceil(number), key=key), 1)` — the floor or
ceiling of `number` with the smaller `key` (the floor on ties, as Python's
`min` keeps the first argument), and at least 1. -/
def roundAspect (number : ℚ) (key : Nat → ℚ) : Nat :=
  let f : Nat := ⌊number⌋.toNat
  let c : Nat := ⌈number⌉.toNat
  max (if key c < key f then c else f) 1

/-- The target size Pillow's `Image.thumbnail((maxDim, maxDim))` resizes a
`w` by `h` image to (`preserve_aspect_ratio` in PIL/Image.py): unchanged when
the image fits in the box, otherwise the box side rounded along the slack
dimension with `round_aspect`; the second branch's key guards `n = 0` to
avoid dividing by zero. -/
def thumbnailSize (w h maxDim : Nat) : Nat × Nat :=
  if maxDim ≥ w ∧ maxDim ≥ h then (w, h)
  else
    let aspect : ℚ := (w : ℚ) / (h : ℚ)
    if 1 ≥ aspect then
      (roundAspect ((maxDim : ℚ) * aspect)
        (fun n => |aspect - (n : ℚ) / (maxDim : ℚ)|), maxDim)
    else
      (maxDim, roundAspect ((maxDim : ℚ) / aspect)
        (fun n => if n = 0 then 0 else |aspect - (maxDim : ℚ) / (n : ℚ)|))

/-- Encoded output formats used by src/api_app.py. -/
inductive Format where
  | JPEG
  | PNG
deriving DecidableEq

/-- Default `MAX_IMAGE_DIM` (src/api_app.py line 34, env override absent). -/
def MAX_IMAGE_DIM : Nat := 1280

/-- `resize_and_encode` (src/api_app.py lines 111-118) on the decoded input
image: convert to RGB, `thumbnail((max_dim, max_dim))`, save as JPEG. -/
def resize_and_encode (img : Img) (maxDim : Nat) : Img × Format :=
  let rgb := img.convert .RGB
  let s := thumbnailSize rgb.width rgb.height maxDim
  (⟨s.1, s.2, .RGB⟩, .JPEG)

/-! ## Concrete endpoints, segmenters and luminance samplers

Closed instances of the abstracted collaborators, used to evaluate the
theorems below on concrete inputs. -/

/-- An endpoint that answers HTTP 500 on every attempt. -/
def epPermanentFailure : Nat → AttemptOutcome Nat :=
  fun _ => .httpError 500 "Internal Server Error"

/-- An endpoint whose `requests.post` raises a connection error on every
attempt. -/
def epTransportFailure : Nat → AttemptOutcome Nat :=
  fun _ => .transportError "connection refused"

/-- An endpoint that answers HTTP 503 on the first attempt and 2xx with
payload `42` afterwards. -/
def epSecondTrySuccess : Nat → AttemptOutcome Nat :=
  fun i => if i = 0 then .httpError 503 "busy" else .success 42

/-- A second-try endpoint with a different first status, for the retry-policy
evaluation. -/
def epRetryThenSuccess : Nat → AttemptOutcome Nat :=
  fun i => if i = 0 then .httpError 500 "oops" else .success 7

/-- An endpoint that answers HTTP 502 on the first attempt and raises a
connection timeout on every later attempt. -/
def epHttpThenTransport : Nat → AttemptOutcome Nat :=
  fun i => if i = 0 then .httpError 502 "bad gateway" else .transportError "timed out"

/-- A constant mid-gray 1 by 1 down-sample luminance. -/
def constLuma : Img → ℚ := fun _ => 128

/-- A segmenter returning encoded bytes of an 8 by 12 RGBA cutout. -/
def tinySegmenter : Img → RembgResult := fun _ => .bytes ⟨8, 12, .RGBA⟩

/-- A segmenter returning an unsupported value (Python type name
`NoneType`). -/
def badSegmenter : Img → RembgResult := fun _ => .other "NoneType"

/-! ## Theorems -/

/-- C6: the edge-cleanup alpha rule `f(a) = 255 if a > 200 else a` of
src/api_app.py line 173 is idempotent on every 8-bit alpha value: applying
the snap-to-255 rule twice yields the same alpha as applying it once. -/
theorem snapAlpha_idempotent : ∀ a : Fin 256, snapAlpha (snapAlpha a.val) = snapAlpha a.val := by
  intro a
  by_cases h : 200 < a.val
  · simp [snapAlpha, h]
  · simp [snapAlpha, h]

/-- C9: edge cleanup never decreases opacity: for every 8-bit alpha value
`a`, `snapAlpha a ≥ a`, and in particular `snapAlpha 0 = 0`, so fully
transparent pixels stay fully transparent. -/
theorem snapAlpha_never_decreases : (∀ a : Fin 256, a.val ≤ snapAlpha a.val) ∧ snapAlpha 0 = 0 := by
  constructor
  · intro a
    by_cases h : 200 < a.val
    · have hlt := a.isLt
      simp only [snapAlpha, if_pos h]
      omega
    · simp [snapAlpha, h]
  · rfl

/-- C5: the luminance-matching step (src/api_app.py lines 206-208) divides
only under the guard `fg_luma > 0`; when the guard holds the applied
brightness factor lies in [0.85, 1.15], and when it fails no brightness
change is applied (`none`). -/
theorem brightnessFactor_clamped (bgLuma fgLuma : ℚ) :
    (0 < fgLuma → ∃ b, brightnessFactor bgLuma fgLuma = some b ∧
      85/100 ≤ b ∧ b ≤ 115/100) ∧
    (fgLuma ≤ 0 → brightnessFactor bgLuma fgLuma = none) := by
  constructor
  · intro hpos
    refine ⟨max (85/100) (min (115/100) (bgLuma / fgLuma)), ?_, le_max_left _ _,
      max_le (by norm_num) (min_le_left _ _)⟩
    rw [brightnessFactor, if_pos hpos]
  · intro hnonpos
    rw [brightnessFactor, if_neg (not_lt.mpr hnonpos)]

/-- Evaluation of `brightnessFactor_clamped` at background luminance 200 and
subject luminance 100. -/
theorem brightnessFactor_clamped_witness :
    ∃ b, brightnessFactor 200 100 = some b ∧ 85/100 ≤ b ∧ b ≤ 115/100 :=
  (brightnessFactor_clamped 200 100).1 (by norm_num)

/-- C8: with `max_retries < 0`, Python's `range(max_retries + 1)` is empty,
so `call_virtual_try_on` issues no POST, never sleeps, and falls through to
`raise SystemExit` with `last_exc` still `None`. -/
theorem call_negative_retries (endpoint : Nat → AttemptOutcome Nat)
    (maxRetries : Int) (backoff : ℚ) (h : maxRetries < 0) :
    call_virtual_try_on endpoint maxRetries backoff = ⟨0, [], .systemExit none⟩ := by
  have hz : (maxRetries + 1).toNat = 0 := by omega
  rw [call_virtual_try_on, hz, callAux]

/-- Evaluation of `call_negative_retries` at `max_retries = -1` against a
permanently failing endpoint. -/
theorem call_negative_retries_witness :
    call_virtual_try_on epPermanentFailure (-1) 1 = ⟨0, [], .systemExit none⟩ :=
  call_negative_retries epPermanentFailure (-1) 1 (by norm_num)

/-- C1: with `max_retries = 3` and an endpoint whose every attempt fails
with a non-2xx status, `call_virtual_try_on` issues exactly 4 POSTs, sleeps
exactly `backoff * 1`, `backoff * 2`, `backoff * 4` seconds in that order
between consecutive attempts, and re-raises the last attempt's HTTP error
(the terminal `UpstreamCallFailed`). -/
theorem call_permanent_failure_trace (endpoint : Nat → AttemptOutcome Nat)
    (st : Nat → Nat) (body : Nat → String) (backoff : ℚ)
    (h : ∀ i, endpoint i = .httpError (st i) (body i)) :
    call_virtual_try_on endpoint 3 backoff =
      ⟨4, [backoff * 1, backoff * 2, backoff * 4], .raisedHttpError (st 3) (body 3)⟩ := by
  norm_num [call_virtual_try_on, callAux, h 0, h 1, h 2, h 3]

/-- Evaluation of `call_permanent_failure_trace` against `epPermanentFailure`
with backoff 1. -/
theorem call_permanent_failure_trace_witness :
    call_virtual_try_on epPermanentFailure 3 1 =
      ⟨4, [1 * 1, 1 * 2, 1 * 4], .raisedHttpError 500 "Internal Server Error"⟩ :=
  call_permanent_failure_trace epPermanentFailure (fun _ => 500)
    (fun _ => "Internal Server Error") 1 (fun _ => rfl)

/-- C7: when the first attempt fails with a retryable (HTTP) error and the
second attempt returns 2xx, `call_virtual_try_on` performs exactly one
backoff sleep, of `backoff * 2 ^ 0 = backoff` seconds, and returns the second
attempt's parsed response unmodified: exactly 2 POSTs, one sleep. -/
theorem call_second_attempt_success (endpoint : Nat → AttemptOutcome Nat)
    (maxRetries : Int) (backoff : ℚ) (st : Nat) (body : String) (resp : Nat)
    (h0 : endpoint 0 = .httpError st body) (h1 : endpoint 1 = .success resp)
    (hm : 1 ≤ maxRetries) :
    call_virtual_try_on endpoint maxRetries backoff = ⟨2, [backoff], .ok resp⟩ := by
  obtain ⟨k, hk⟩ : ∃ k, (maxRetries + 1).toNat = k + 2 := ⟨(maxRetries - 1).toNat, by omega⟩
  have hne : ¬ ((0 : Int) ≥ maxRetries) := by omega
  norm_num [call_virtual_try_on, hk, callAux, h0, h1, hne]

/-- Evaluation of `call_second_attempt_success` against
`epSecondTrySuccess` with `max_retries = 3`, backoff 2. -/
theorem call_second_attempt_success_witness :
    call_virtual_try_on epSecondTrySuccess 3 2 = ⟨2, [2], .ok 42⟩ :=
  call_second_attempt_success epSecondTrySuccess 3 2 503 "busy" 42 rfl rfl (by norm_num)

/-- C2 counterexample: the `except requests.HTTPError` clause of
src/virtual_try_on_demo.py line 89 does not catch transport failures. With
`max_retries = 3` against an endpoint whose first attempt raises a
connection error, the call propagates the transport error after a single
POST with no sleep — it does not sleep `backoff * 2 ^ 0` and retry as the
claim states. -/
theorem call_transport_error_not_retried :
    call_virtual_try_on epTransportFailure 3 1 =
      ⟨1, [], .raisedTransportError "connection refused"⟩ ∧
    ¬ (2 ≤ (call_virtual_try_on epTransportFailure 3 1).attempts ∧
       (call_virtual_try_on epTransportFailure 3 1).sleeps ≠ []) := by
  have htrace : call_virtual_try_on epTransportFailure 3 1 =
      ⟨1, [], .raisedTransportError "connection refused"⟩ := by
    norm_num [call_virtual_try_on, callAux, epTransportFailure]
  refine ⟨htrace, ?_⟩
  rw [htrace]
  simp

/-- Any non-empty run of the retry loop issues at least one POST. -/
lemma one_le_callAux_attempts (endpoint : Nat → AttemptOutcome Nat)
    (maxRetries : Int) (backoff : ℚ) (a r : Nat) (lastExc : Option (Nat × String)) :
    1 ≤ (callAux endpoint maxRetries backoff a (r + 1) lastExc).attempts := by
  cases hE : endpoint a with
  | success resp => simp [callAux, hE]
  | transportError msg => simp [callAux, hE]
  | httpError st body =>
    by_cases hge : (a : Int) ≥ maxRetries
    · simp [callAux, hE, hge]
    · simp [callAux, hE, hge]

/-- One retryable iteration of the loop: a non-2xx attempt below the retry
budget sleeps `backoff * 2 ^ attempt` and continues with the next attempt. -/
lemma callAux_http_step (endpoint : Nat → AttemptOutcome Nat)
    (maxRetries : Int) (backoff : ℚ) (a r : Nat) (lastExc : Option (Nat × String))
    (st : Nat) (body : String) (hE : endpoint a = .httpError st body)
    (hlt : (a : Int) < maxRetries) :
    callAux endpoint maxRetries backoff a (r + 1) lastExc =
      ⟨(callAux endpoint maxRetries backoff (a + 1) r (some (st, body))).attempts + 1,
       backoff * 2 ^ a ::
         (callAux endpoint maxRetries backoff (a + 1) r (some (st, body))).sleeps,
       (callAux endpoint maxRetries backoff (a + 1) r (some (st, body))).result⟩ := by
  have hne : ¬ ((a : Int) ≥ maxRetries) := not_le.mpr hlt
  simp [callAux, hE, hne]

/-- Prepending the sleep of attempt `a` to the sleeps of attempts
`a + 1, ..., a + j` gives the sleeps of attempts `a, ..., a + j`. -/
lemma range_map_pow_cons (b : ℚ) (a j : Nat) :
    b * 2 ^ a :: (List.range j).map (fun i => b * 2 ^ (a + 1 + i)) =
      (List.range (j + 1)).map (fun i => b * 2 ^ (a + i)) := by
  rw [List.range_succ_eq_map, List.map_cons, List.map_map]
  have hfun : ((fun i => b * 2 ^ (a + i)) ∘ Nat.succ) =
      fun i => b * 2 ^ (a + 1 + i) := by
    funext i
    simp only [Function.comp]
    rw [show a + 1 + i = a + (i + 1) from by omega]
  rw [hfun]
  simp

/-- Run of the loop from attempt `a` when attempts `a, ..., a + j` all fail
with non-2xx statuses and stay below the retry budget: the sleeps start with
`backoff * 2 ^ a, ..., backoff * 2 ^ (a + j)` in order and at least `j + 2`
POSTs are issued (each failing attempt is followed by a retry). -/
lemma callAux_http_run (endpoint : Nat → AttemptOutcome Nat) (mr : Int) (b : ℚ)
    (j : Nat) : ∀ (a r : Nat) (lastExc : Option (Nat × String)),
    (∀ i, i ≤ j → ∃ s t, endpoint (a + i) = .httpError s t) →
    ((a : Int) + (j : Int) < mr) → j + 2 ≤ r →
    (callAux endpoint mr b a r lastExc).sleeps.take (j + 1) =
      (List.range (j + 1)).map (fun i => b * 2 ^ (a + i)) ∧
    j + 2 ≤ (callAux endpoint mr b a r lastExc).attempts := by
  induction j with
  | zero =>
    intro a r lastExc hall hlt hr
    obtain ⟨s, t, hE⟩ := hall 0 (Nat.le_refl 0)
    have hE0 : endpoint a = .httpError s t := hE
    obtain ⟨r2, rfl⟩ : ∃ r2, r = r2 + 1 := ⟨r - 1, by omega⟩
    obtain ⟨r3, rfl⟩ : ∃ r3, r2 = r3 + 1 := ⟨r2 - 1, by omega⟩
    have hlt0 : (a : Int) < mr := by push_cast at hlt; omega
    rw [callAux_http_step endpoint mr b a (r3 + 1) lastExc s t hE0 hlt0]
    constructor
    · have hr1 : List.range 1 = [0] := rfl
      simp [hr1]
    · have h1 := one_le_callAux_attempts endpoint mr b (a + 1) r3 (some (s, t))
      simp only []
      omega
  | succ j ih =>
    intro a r lastExc hall hlt hr
    obtain ⟨s, t, hE⟩ := hall 0 (Nat.zero_le _)
    have hE0 : endpoint a = .httpError s t := hE
    obtain ⟨r2, rfl⟩ : ∃ r2, r = r2 + 1 := ⟨r - 1, by omega⟩
    have hlt0 : (a : Int) < mr := by push_cast at hlt; omega
    rw [callAux_http_step endpoint mr b a r2 lastExc s t hE0 hlt0]
    have hall2 : ∀ i, i ≤ j → ∃ s2 t2, endpoint (a + 1 + i) = .httpError s2 t2 := by
      intro i hi
      obtain ⟨s2, t2, hE2⟩ := hall (i + 1) (by omega)
      refine ⟨s2, t2, ?_⟩
      rw [show a + 1 + i = a + (i + 1) from by omega]
      exact hE2
    have ihres := ih (a + 1) r2 (some (s, t)) hall2
      (by push_cast at hlt ⊢; omega) (by omega)
    constructor
    · simp only [List.take_succ_cons]
      rw [ihres.1]
      exact range_map_pow_cons b a (j + 1)
    · have h2 := ihres.2
      simp only []
      omega

/-- Run of the loop from attempt `a` when attempts `a, ..., a + j - 1` fail
with non-2xx statuses and attempt `a + j` fails with a transport error that
is not a `requests.HTTPError`: exactly `j + 1` POSTs happen, the sleeps are
those of the `j` earlier retries only (none after the transport failure),
and the transport error propagates uncaught. -/
lemma callAux_transport_run (endpoint : Nat → AttemptOutcome Nat) (mr : Int)
    (b : ℚ) (msg : String) (j : Nat) : ∀ (a r : Nat) (lastExc : Option (Nat × String)),
    (∀ i, i < j → ∃ s t, endpoint (a + i) = .httpError s t) →
    endpoint (a + j) = .transportError msg →
    ((a : Int) + (j : Int) ≤ mr) → j + 1 ≤ r →
    callAux endpoint mr b a r lastExc =
      ⟨j + 1, (List.range j).map (fun i => b * 2 ^ (a + i)),
       .raisedTransportError msg⟩ := by
  induction j with
  | zero =>
    intro a r lastExc _ hE hle hr
    have hE0 : endpoint a = .transportError msg := hE
    obtain ⟨r2, rfl⟩ : ∃ r2, r = r2 + 1 := ⟨r - 1, by omega⟩
    simp [callAux, hE0]
  | succ j ih =>
    intro a r lastExc hall hE hle hr
    obtain ⟨s, t, hE0pre⟩ := hall 0 (by omega)
    have hE0 : endpoint a = .httpError s t := hE0pre
    obtain ⟨r2, rfl⟩ : ∃ r2, r = r2 + 1 := ⟨r - 1, by omega⟩
    have hlt0 : (a : Int) < mr := by push_cast at hle; omega
    rw [callAux_http_step endpoint mr b a r2 lastExc s t hE0 hlt0]
    have hall2 : ∀ i, i < j → ∃ s2 t2, endpoint (a + 1 + i) = .httpError s2 t2 := by
      intro i hi
      obtain ⟨s2, t2, hE2⟩ := hall (i + 1) (by omega)
      refine ⟨s2, t2, ?_⟩
      rw [show a + 1 + i = a + (i + 1) from by omega]
      exact hE2
    have hEj : endpoint (a + 1 + j) = .transportError msg := by
      rw [show a + 1 + j = a + (j + 1) from by omega]
      exact hE
    have ihres := ih (a + 1) r2 (some (s, t)) hall2 hEj
      (by push_cast at hle ⊢; omega) (by omega)
    rw [ihres]
    simp [range_map_pow_cons]

/-- C2 amended: only failures raised as `requests.HTTPError` (non-2xx
responses) are retried, and this holds at every attempt index. For every
attempt index `a` that the loop reaches (all earlier attempts failed with
non-2xx statuses): if attempt `a` fails with a non-2xx status and
`a < max_retries`, the call sleeps `backoff * 2 ^ i` for `i = 0, ..., a` in
order — in particular `backoff * 2 ^ a` after attempt `a` — and issues at
least one further POST; if attempt `a` fails with a transport failure
(connection error, timeout), it is not caught and propagates immediately:
exactly `a + 1` POSTs in total and no sleep after the transport failure. -/
theorem call_retry_policy (endpoint : Nat → AttemptOutcome Nat)
    (maxRetries : Int) (backoff : ℚ) (a : Nat)
    (hbefore : ∀ i, i < a → ∃ s t, endpoint i = .httpError s t) :
    (∀ s t, endpoint a = .httpError s t → (a : Int) < maxRetries →
      (call_virtual_try_on endpoint maxRetries backoff).sleeps.take (a + 1) =
        (List.range (a + 1)).map (fun i => backoff * 2 ^ i) ∧
      a + 2 ≤ (call_virtual_try_on endpoint maxRetries backoff).attempts) ∧
    (∀ msg, endpoint a = .transportError msg → (a : Int) ≤ maxRetries →
      call_virtual_try_on endpoint maxRetries backoff =
        ⟨a + 1, (List.range a).map (fun i => backoff * 2 ^ i),
         .raisedTransportError msg⟩) := by
  have hfe : (fun i => backoff * 2 ^ (0 + i)) = fun i => backoff * 2 ^ i := by
    funext i
    rw [Nat.zero_add]
  constructor
  · intro s t hE hlt
    have hall : ∀ i, i ≤ a → ∃ s2 t2, endpoint (0 + i) = .httpError s2 t2 := by
      intro i hi
      rw [Nat.zero_add]
      rcases Nat.lt_or_ge i a with hia | hia
      · exact hbefore i hia
      · have heq : i = a := by omega
        subst heq
        exact ⟨s, t, hE⟩
    have hrun := callAux_http_run endpoint maxRetries backoff a 0
      (maxRetries + 1).toNat none hall (by push_cast; omega) (by omega)
    rw [call_virtual_try_on]
    refine ⟨?_, hrun.2⟩
    have h1 := hrun.1
    rw [hfe] at h1
    exact h1
  · intro msg hE hle
    have hall : ∀ i, i < a → ∃ s2 t2, endpoint (0 + i) = .httpError s2 t2 := by
      intro i hi
      rw [Nat.zero_add]
      exact hbefore i hi
    have hE0 : endpoint (0 + a) = .transportError msg := by
      rw [Nat.zero_add]
      exact hE
    have hrun := callAux_transport_run endpoint maxRetries backoff msg a 0
      (maxRetries + 1).toNat none hall hE0 (by push_cast; omega) (by omega)
    rw [call_virtual_try_on, hrun, hfe]

/-- Evaluation of `call_retry_policy` at attempt index 1: against
`epPermanentFailure` (attempt 1 fails non-2xx below the budget, so the call
sleeps 1 and 2 seconds and keeps going) and against `epHttpThenTransport`
(attempt 1 raises a connection timeout, so the call stops after 2 POSTs and
one sleep), both with `max_retries = 3` and backoff 1. -/
theorem call_retry_policy_witness :
    ((call_virtual_try_on epPermanentFailure 3 1).sleeps.take (1 + 1) =
        (List.range (1 + 1)).map (fun i => 1 * 2 ^ i) ∧
      1 + 2 ≤ (call_virtual_try_on epPermanentFailure 3 1).attempts) ∧
    call_virtual_try_on epHttpThenTransport 3 1 =
      ⟨1 + 1, (List.range 1).map (fun i => 1 * 2 ^ i),
       .raisedTransportError "timed out"⟩ :=
  ⟨(call_retry_policy epPermanentFailure 3 1 1
      (fun _ _ => ⟨500, "Internal Server Error", rfl⟩)).1 500 "Internal Server Error"
      rfl (by norm_num),
   (call_retry_policy epHttpThenTransport 3 1 1
      (fun i hi => by
        have heq : i = 0 := by omega
        subst heq
        exact ⟨502, "bad gateway", rfl⟩)).2 "timed out" rfl (by norm_num)⟩

/-- C3: whenever the segmenter returns a supported representation whose
decoded cutout is `cutout`, the composite succeeds and its dimensions are
exactly the background's fitted dimensions, which `ImageOps.fit` makes equal
to the cutout's size. -/
theorem composite_dims_eq_cutout (foregroundIn backgroundIn : Img)
    (segment : Img → RembgResult) (luma : Img → ℚ) (cutout : Img)
    (h : segment (foregroundIn.convert .RGBA) = .bytes cutout ∨
         segment (foregroundIn.convert .RGBA) = .pilImage cutout ∨
         segment (foregroundIn.convert .RGBA) = .ndarray cutout) :
    ∃ out, composite_on_background foregroundIn backgroundIn segment luma = .ok out ∧
      out.width = cutout.width ∧ out.height = cutout.height := by
  have hout : composite_on_background foregroundIn backgroundIn segment luma =
      .ok ⟨cutout.width, cutout.height, .RGB⟩ := by
    rcases h with h | h | h <;>
      (unfold composite_on_background
       simp only [h]
       simp [decodeCutout, Img.convert, Img.fit, Img.resizeTo, Img.pointAlpha,
         Img.gaussianBlur, Img.alphaCompositeAt, Img.enhanceBrightness,
         Except.map])
  exact ⟨⟨cutout.width, cutout.height, .RGB⟩, hout, rfl, rfl⟩

/-- Evaluation of `composite_dims_eq_cutout` with a segmenter producing an
8 by 12 cutout from a 10 by 15 foreground over a 20 by 20 background. -/
theorem composite_dims_eq_cutout_witness :
    ∃ out, composite_on_background ⟨10, 15, .RGB⟩ ⟨20, 20, .RGB⟩
        tinySegmenter constLuma = .ok out ∧
      out.width = 8 ∧ out.height = 12 :=
  composite_dims_eq_cutout ⟨10, 15, .RGB⟩ ⟨20, 20, .RGB⟩ tinySegmenter constLuma
    ⟨8, 12, .RGBA⟩ (Or.inl rfl)

/-- C4: when the segmenter returns an unsupported shape, the composite fails
with the `TypeError` of src/api_app.py line 152 (the spec's
`SegmentationError`), and the failure is raised before any fitting, scaling,
shadow or blending step runs: the result does not depend on the background
or on the luminance sampler, and in this functional embedding the inputs are
unmodified by construction. -/
theorem composite_unsupported_segmenter (foregroundIn backgroundIn : Img)
    (segment : Img → RembgResult) (luma : Img → ℚ) (ty : String)
    (h : segment (foregroundIn.convert .RGBA) = .other ty) :
    composite_on_background foregroundIn backgroundIn segment luma =
      .error (.typeError ("Unexpected rembg output type: " ++ ty)) ∧
    ∀ backgroundAlt : Img, ∀ lumaAlt : Img → ℚ,
      composite_on_background foregroundIn backgroundAlt segment lumaAlt =
        composite_on_background foregroundIn backgroundIn segment luma := by
  constructor
  · simp [composite_on_background, decodeCutout, h, Except.map]
  · intro backgroundAlt lumaAlt
    simp [composite_on_background, decodeCutout, h, Except.map]

/-- Evaluation of `composite_unsupported_segmenter` with a segmenter
returning a Python `NoneType` value. -/
theorem composite_unsupported_segmenter_witness :
    composite_on_background ⟨10, 15, .RGB⟩ ⟨20, 20, .RGB⟩ badSegmenter constLuma =
      .error (.typeError ("Unexpected rembg output type: " ++ "NoneType")) ∧
    ∀ backgroundAlt : Img, ∀ lumaAlt : Img → ℚ,
      composite_on_background ⟨10, 15, .RGB⟩ backgroundAlt badSegmenter lumaAlt =
        composite_on_background ⟨10, 15, .RGB⟩ ⟨20, 20, .RGB⟩ badSegmenter constLuma :=
  composite_unsupported_segmenter ⟨10, 15, .RGB⟩ ⟨20, 20, .RGB⟩ badSegmenter
    constLuma "NoneType" rfl

/-- The rounded dimension is at least one pixel. -/
lemma one_le_roundAspect (q : ℚ) (key : Nat → ℚ) : 1 ≤ roundAspect q key := by
  simp only [roundAspect]
  exact le_max_right _ _

/-- The rounded dimension never exceeds an integer bound that the exact
value respects. -/
lemma roundAspect_le_of_le (q : ℚ) (key : Nat → ℚ) (n : Nat) (h1 : 1 ≤ n)
    (hq : q ≤ (n : ℚ)) : roundAspect q key ≤ n := by
  have hceil : ⌈q⌉ ≤ (n : Int) := Int.ceil_le.mpr (by exact_mod_cast hq)
  have hfc : ⌊q⌋ ≤ ⌈q⌉ := Int.floor_le_ceil q
  simp only [roundAspect]
  refine max_le ?_ h1
  split
  · omega
  · omega

/-- The rounded dimension is within one pixel of the exact aspect-preserving
value. -/
lemma abs_roundAspect_sub_lt (q : ℚ) (key : Nat → ℚ) (hq : 0 < q) :
    |(roundAspect q key : ℚ) - q| < 1 := by
  have hc0 : 0 < ⌈q⌉ := Int.ceil_pos.mpr hq
  have hfc : ⌊q⌋ ≤ ⌈q⌉ := Int.floor_le_ceil q
  have hub : roundAspect q key ≤ ⌈q⌉.toNat := by
    simp only [roundAspect]
    refine max_le ?_ (by omega)
    split
    · omega
    · omega
  have hlb : ⌊q⌋.toNat ≤ roundAspect q key := by
    simp only [roundAspect]
    refine le_trans ?_ (le_max_left _ _)
    split
    · omega
    · omega
  have h1r : 1 ≤ roundAspect q key := one_le_roundAspect q key
  have hcastc : ((⌈q⌉.toNat : ℚ)) = ((⌈q⌉ : ℚ)) := by
    exact_mod_cast congrArg (fun z : Int => (z : ℚ)) (Int.toNat_of_nonneg (le_of_lt hc0))
  rw [abs_sub_lt_iff]
  constructor
  · have hle : (roundAspect q key : ℚ) ≤ (⌈q⌉.toNat : ℚ) := by exact_mod_cast hub
    have hceil := Int.ceil_lt_add_one q
    rw [hcastc] at hle
    linarith
  · rcases le_or_lt 1 q with h1 | h1
    · have hf0 : 0 ≤ ⌊q⌋ := Int.floor_nonneg.mpr (le_of_lt hq)
      have hcastf : ((⌊q⌋.toNat : ℚ)) = ((⌊q⌋ : ℚ)) := by
        exact_mod_cast congrArg (fun z : Int => (z : ℚ)) (Int.toNat_of_nonneg hf0)
      have hge : ((⌊q⌋.toNat : ℚ)) ≤ (roundAspect q key : ℚ) := by exact_mod_cast hlb
      have hfl := Int.sub_one_lt_floor q
      rw [hcastf] at hge
      linarith
    · have hge : (1 : ℚ) ≤ (roundAspect q key : ℚ) := by exact_mod_cast h1r
      linarith

/-- Bounds on the thumbnail target size: no dimension grows, a dimension
over the box shrinks to at most `maxDim`, both stay positive, and the
output aspect ratio matches the input one up to one pixel of rounding on
the adjusted dimension. -/
lemma thumbnailSize_bounds (w h maxDim : Nat) (hw : 1 ≤ w) (hh : 1 ≤ h)
    (hd : 1 ≤ maxDim) :
    (thumbnailSize w h maxDim).1 ≤ w ∧ (thumbnailSize w h maxDim).2 ≤ h ∧
    (maxDim < w → (thumbnailSize w h maxDim).1 ≤ maxDim) ∧
    (maxDim < h → (thumbnailSize w h maxDim).2 ≤ maxDim) ∧
    1 ≤ (thumbnailSize w h maxDim).1 ∧ 1 ≤ (thumbnailSize w h maxDim).2 ∧
    |((thumbnailSize w h maxDim).1 : Int) * (h : Int) -
      ((thumbnailSize w h maxDim).2 : Int) * (w : Int)| ≤ ((max w h : Nat) : Int) := by
  have hw0 : (0 : ℚ) < w := by exact_mod_cast hw
  have hh0 : (0 : ℚ) < h := by exact_mod_cast hh
  have hd0 : (0 : ℚ) < maxDim := by exact_mod_cast hd
  by_cases hfit : maxDim ≥ w ∧ maxDim ≥ h
  · simp only [thumbnailSize, if_pos hfit]
    refine ⟨le_refl w, le_refl h, by omega, by omega, hw, hh, ?_⟩
    have hz : (w : Int) * h - (h : Int) * w = 0 := by ring
    rw [hz, abs_zero]
    exact_mod_cast Nat.zero_le (max w h)
  · simp only [thumbnailSize, if_neg hfit]
    by_cases hasp : (1 : ℚ) ≥ (w : ℚ) / (h : ℚ)
    · have hwh : w ≤ h := by
        have h2 : (w : ℚ) / (h : ℚ) ≤ 1 := hasp
        rw [div_le_one hh0] at h2
        exact_mod_cast h2
      have hhd : maxDim < h := by
        rcases not_and_or.mp hfit with hc | hc
        · push_neg at hc
          omega
        · push_neg at hc
          exact hc
      rw [if_pos hasp]
      set key := fun n : Nat => |(w : ℚ) / (h : ℚ) - (n : ℚ) / (maxDim : ℚ)| with hkey
      set q : ℚ := (maxDim : ℚ) * ((w : ℚ) / (h : ℚ)) with hqdef
      have hq0 : 0 < q := by rw [hqdef]; positivity
      have hqd : q ≤ (maxDim : ℚ) := by
        rw [hqdef]
        exact mul_le_of_le_one_right (le_of_lt hd0) hasp
      have hqw : q ≤ (w : ℚ) := by
        have hqe : q = (w : ℚ) * ((maxDim : ℚ) / (h : ℚ)) := by rw [hqdef]; ring
        rw [hqe]
        apply mul_le_of_le_one_right (le_of_lt hw0)
        rw [div_le_one hh0]
        exact_mod_cast le_of_lt hhd
      refine ⟨roundAspect_le_of_le q key w hw hqw, le_of_lt hhd,
        fun _ => roundAspect_le_of_le q key maxDim hd hqd, fun _ => le_refl maxDim,
        one_le_roundAspect q key, hd, ?_⟩
      have hnear := abs_roundAspect_sub_lt q key hq0
      have hqh : q * (h : ℚ) = (maxDim : ℚ) * (w : ℚ) := by
        rw [hqdef]
        field_simp
      have habs : |(roundAspect q key : ℚ) * h - (maxDim : ℚ) * w| < (h : ℚ) := by
        rw [← hqh]
        have he : (roundAspect q key : ℚ) * h - q * h = ((roundAspect q key : ℚ) - q) * h := by
          ring
        rw [he, abs_mul, abs_of_pos hh0]
        calc |(roundAspect q key : ℚ) - q| * h < 1 * h :=
              mul_lt_mul_of_pos_right hnear hh0
          _ = (h : ℚ) := one_mul _
      have habs2 : |(roundAspect q key : Int) * h - (maxDim : Int) * w| < (h : Int) := by
        rw [abs_lt] at habs ⊢
        constructor
        · exact_mod_cast habs.1
        · exact_mod_cast habs.2
      have hmx : (h : Int) ≤ ((max w h : Nat) : Int) := by
        exact_mod_cast le_max_right w h
      exact le_trans (le_of_lt habs2) hmx
    · have hasp2 : (1 : ℚ) < (w : ℚ) / (h : ℚ) := lt_of_not_ge hasp
      have hwh : h < w := by
        rw [lt_div_iff₀ hh0, one_mul] at hasp2
        exact_mod_cast hasp2
      have hwd : maxDim < w := by
        rcases not_and_or.mp hfit with hc | hc
        · push_neg at hc
          exact hc
        · push_neg at hc
          omega
      rw [if_neg hasp]
      set key := fun n : Nat =>
        if n = 0 then (0 : ℚ) else |(w : ℚ) / (h : ℚ) - (maxDim : ℚ) / (n : ℚ)| with hkey
      set q : ℚ := (maxDim : ℚ) / ((w : ℚ) / (h : ℚ)) with hqdef
      have hqe : q = (maxDim : ℚ) * ((h : ℚ) / (w : ℚ)) := by
        rw [hqdef]
        field_simp
      have hq0 : 0 < q := by rw [hqe]; positivity
      have hqd : q ≤ (maxDim : ℚ) := by
        rw [hqe]
        apply mul_le_of_le_one_right (le_of_lt hd0)
        rw [div_le_one hw0]
        exact_mod_cast le_of_lt hwh
      have hqh : q ≤ (h : ℚ) := by
        have hqe2 : q = (h : ℚ) * ((maxDim : ℚ) / (w : ℚ)) := by rw [hqe]; ring
        rw [hqe2]
        apply mul_le_of_le_one_right (le_of_lt hh0)
        rw [div_le_one hw0]
        exact_mod_cast le_of_lt hwd
      refine ⟨le_of_lt hwd, roundAspect_le_of_le q key h hh hqh, fun _ => le_refl maxDim,
        fun _ => roundAspect_le_of_le q key maxDim hd hqd, hd,
        one_le_roundAspect q key, ?_⟩
      have hnear := abs_roundAspect_sub_lt q key hq0
      have hqw : q * (w : ℚ) = (maxDim : ℚ) * (h : ℚ) := by
        rw [hqe]
        field_simp
      have habs : |(maxDim : ℚ) * h - (roundAspect q key : ℚ) * w| < (w : ℚ) := by
        rw [← hqw]
        have he : q * w - (roundAspect q key : ℚ) * w = -(((roundAspect q key : ℚ) - q) * w) := by
          ring
        rw [he, abs_neg, abs_mul, abs_of_pos hw0]
        calc |(roundAspect q key : ℚ) - q| * w < 1 * w :=
              mul_lt_mul_of_pos_right hnear hw0
          _ = (w : ℚ) := one_mul _
      have habs2 : |(maxDim : Int) * h - (roundAspect q key : Int) * w| < (w : Int) := by
        rw [abs_lt] at habs ⊢
        constructor
        · exact_mod_cast habs.1
        · exact_mod_cast habs.2
      have hmx : (w : Int) ≤ ((max w h : Nat) : Int) := by
        exact_mod_cast le_max_left w h
      exact le_trans (le_of_lt habs2) hmx

/-- C10 counterexample: a decodable 3 by 7 image with `max_dim = 2` is
resized to 1 by 2, whose aspect ratio 1:2 differs from the input's 3:7 —
the aspect ratio is not preserved exactly (only up to integer rounding). -/
theorem resize_and_encode_aspect_counterexample :
    (resize_and_encode (Img.mk 3 7 .RGB) 2).1 = Img.mk 1 2 .RGB ∧
    (resize_and_encode (Img.mk 3 7 .RGB) 2).1.width * 7 ≠
      (resize_and_encode (Img.mk 3 7 .RGB) 2).1.height * 3 := by
  have hceil : ⌈(6 : ℚ) / 7⌉ = 1 := by
    rw [Int.ceil_eq_iff]
    norm_num
  have hsz : thumbnailSize 3 7 2 = (1, 2) := by
    norm_num [thumbnailSize, roundAspect, hceil]
    split <;> norm_num
  constructor
  · simp [resize_and_encode, Img.convert, hsz]
  · simp [resize_and_encode, Img.convert, hsz]

/-- C10 amended: `resize_and_encode` never upscales (output dimensions never
exceed the input's), each output dimension is at most `max_dim` whenever the
corresponding input dimension exceeds `max_dim`, both output dimensions stay
positive, the aspect ratio is preserved up to one pixel of integer rounding
on the adjusted dimension (`|outW * h - outH * w| ≤ max w h`), and the
result is re-encoded as an opaque RGB JPEG. -/
theorem resize_and_encode_no_upscale (w h maxDim : Nat) (m : Mode)
    (hw : 1 ≤ w) (hh : 1 ≤ h) (hd : 1 ≤ maxDim) :
    (resize_and_encode (Img.mk w h m) maxDim).1.width ≤ w ∧
    (resize_and_encode (Img.mk w h m) maxDim).1.height ≤ h ∧
    (maxDim < w → (resize_and_encode (Img.mk w h m) maxDim).1.width ≤ maxDim) ∧
    (maxDim < h → (resize_and_encode (Img.mk w h m) maxDim).1.height ≤ maxDim) ∧
    1 ≤ (resize_and_encode (Img.mk w h m) maxDim).1.width ∧
    1 ≤ (resize_and_encode (Img.mk w h m) maxDim).1.height ∧
    |((resize_and_encode (Img.mk w h m) maxDim).1.width : Int) * (h : Int) -
      ((resize_and_encode (Img.mk w h m) maxDim).1.height : Int) * (w : Int)| ≤
      ((max w h : Nat) : Int) ∧
    (resize_and_encode (Img.mk w h m) maxDim).1.mode = .RGB ∧
    (resize_and_encode (Img.mk w h m) maxDim).2 = .JPEG := by
  obtain ⟨h1, h2, h3, h4, h5, h6, h7⟩ := thumbnailSize_bounds w h maxDim hw hh hd
  exact ⟨h1, h2, h3, h4, h5, h6, h7, rfl, rfl⟩

/-- Evaluation of `resize_and_encode_no_upscale` on a 2000 by 1000 RGB image
with the default `MAX_IMAGE_DIM` of 1280. -/
theorem resize_and_encode_no_upscale_witness :
    (resize_and_encode (Img.mk 2000 1000 .RGB) 1280).1.width ≤ 2000 ∧
    (resize_and_encode (Img.mk 2000 1000 .RGB) 1280).1.height ≤ 1000 ∧
    (1280 < 2000 → (resize_and_encode (Img.mk 2000 1000 .RGB) 1280).1.width ≤ 1280) ∧
    (1280 < 1000 → (resize_and_encode (Img.mk 2000 1000 .RGB) 1280).1.height ≤ 1280) ∧
    1 ≤ (resize_and_encode (Img.mk 2000 1000 .RGB) 1280).1.width ∧
    1 ≤ (resize_and_encode (Img.mk 2000 1000 .RGB) 1280).1.height ∧
    |((resize_and_encode (Img.mk 2000 1000 .RGB) 1280).1.width : Int) * (1000 : Int) -
      ((resize_and_encode (Img.mk 2000 1000 .RGB) 1280).1.height : Int) * (2000 : Int)| ≤
      ((max 2000 1000 : Nat) : Int) ∧
    (resize_and_encode (Img.mk 2000 1000 .RGB) 1280).1.mode = .RGB ∧
    (resize_and_encode (Img.mk 2000 1000 .RGB) 1280).2 = .JPEG :=
  resize_and_encode_no_upscale 2000 1000 1280 .RGB (by norm_num) (by norm_num)
    (by norm_num)

end VTO
